import Mathlib

/-!
# Verification of the signtool code-signing pipeline

A shallow embedding of the signing pipeline of `src/main.ts`
(signtool-code-sign): signing-tool discovery with numeric version ordering,
certificate staging and store import, recursive file enumeration, and the
per-file sign-and-verify retry loop, together with theorems settling the
specified properties.

External effects (directory listings, `stat` probes, process invocations,
file writes) are modelled by explicit oracle environments, and every
externally observable action is recorded in an event trace.
-/

namespace SignTool

/-! ## Version strings and their numeric comparison

`findSigntool` (main.ts lines 42-54) sorts version directory names with a
comparator that splits on `.`, converts each component with `Number`, and
compares component-by-component, treating a missing component as `0`
(`aParts[i] || 0`). Comparing with missing components read as `0` is the
same as zero-padding both component lists to a common length and comparing
them position by position.
-/

/-- JS `s.split('.')` on the character list of `s`: maximal runs between
dots, with empty runs kept (`"".split('.') = [""]`, `"1.".split('.') =
["1", ""]`). -/
def splitOnDot : List Char → List (List Char)
  | [] => [[]]
  | c :: rest =>
    if c = '.' then [] :: splitOnDot rest
    else
      match splitOnDot rest with
      | g :: gs => (c :: g) :: gs
      | [] => [[c]]

/-- One version component, as JS `Number` reads the digit-only strings the
version-directory filter admits (`Number("17763") = 17763`). -/
def digitsVal (cs : List Char) : Nat :=
  cs.foldl (fun acc c => acc * 10 + (c.toNat - 48)) 0

/-- Parsing as in `a.split('.').map(Number)` of the comparator (main.ts line 43). -/
def parseVersionParts (s : String) : List Nat :=
  (splitOnDot s.data).map digitsVal

/-- Position-by-position comparison of two component lists of equal length
(the loop body of main.ts lines 46-52, after zero-padding). -/
def partsCmpAux : List Nat → List Nat → Ordering
  | a :: as, b :: bs =>
    match compare a b with
    | Ordering.eq => partsCmpAux as bs
    | o => o
  | _, _ => Ordering.eq

/-- Zero-pad a component list to length `n` (the `aParts[i] || 0` reads of
main.ts lines 47-48 for indices beyond the end of the list). -/
def padTo (n : Nat) (l : List Nat) : List Nat :=
  l ++ List.replicate (n - l.length) 0

/-- The version comparator of `findSigntool` (main.ts lines 42-54), stated
ascending: `.lt` exactly when the JS comparator returns a positive number
(which places `a` after `b` in the descending sort). -/
def versionCmp (a b : String) : Ordering :=
  partsCmpAux
    (padTo (max (parseVersionParts a).length (parseVersionParts b).length)
      (parseVersionParts a))
    (padTo (max (parseVersionParts a).length (parseVersionParts b).length)
      (parseVersionParts b))

/-- Relation: `a` sorts no later than `b` in the descending order of main.ts line 42:
`a`'s components are numerically `≥` `b`'s. -/
def versionGE (a b : String) : Bool :=
  decide (versionCmp a b ≠ Ordering.lt)

/-! ### Order lemmas for the comparator -/

theorem partsCmpAux_self : ∀ as, partsCmpAux as as = Ordering.eq := by
  intro as
  induction as with
  | nil => rfl
  | cons a as ih => simp [partsCmpAux, Nat.compare_eq_eq.mpr rfl, ih]

theorem partsCmpAux_swap :
    ∀ as bs, (partsCmpAux as bs).swap = partsCmpAux bs as := by
  intro as
  induction as with
  | nil => intro bs; cases bs <;> rfl
  | cons a as ih =>
    intro bs
    cases bs with
    | nil => rfl
    | cons b bs =>
      simp only [partsCmpAux]
      have hba : compare b a = (compare a b).swap := (Nat.compare_swap a b).symm
      rw [hba]
      rcases hab : compare a b with _ | _ | _ <;>
        first
        | rfl
        | exact ih bs

theorem partsCmpAux_trans_ne_lt :
    ∀ as bs cs, as.length = bs.length → bs.length = cs.length →
      partsCmpAux as bs ≠ Ordering.lt → partsCmpAux bs cs ≠ Ordering.lt →
      partsCmpAux as cs ≠ Ordering.lt := by
  intro as
  induction as with
  | nil =>
    intro bs cs hab hbc _ _
    cases cs with
    | nil => exact fun hx => Ordering.noConfusion hx
    | cons c cs =>
      exfalso
      simp only [List.length_nil, List.length_cons] at hab hbc
      omega
  | cons a as ih =>
    intro bs cs hab hbc h1 h2
    cases bs with
    | nil => exfalso; simp at hab
    | cons b bs =>
      cases cs with
      | nil => exfalso; simp at hbc
      | cons c cs =>
        simp only [List.length_cons] at hab hbc
        simp only [partsCmpAux] at h1 h2 ⊢
        rcases hb : compare a b with _ | _ | _ <;> rw [hb] at h1
        · exact absurd rfl h1
        · rcases hc : compare b c with _ | _ | _ <;> rw [hc] at h2
          · exact absurd rfl h2
          · have hac : a = c := (Nat.compare_eq_eq.mp hb).trans (Nat.compare_eq_eq.mp hc)
            rw [Nat.compare_eq_eq.mpr hac]
            exact ih bs cs (by omega) (by omega) h1 h2
          · have hca : c < a := by
              have hx := Nat.compare_eq_eq.mp hb
              have hy := Nat.compare_eq_gt.mp hc
              omega
            rw [Nat.compare_eq_gt.mpr hca]
            exact fun hx => Ordering.noConfusion hx
        · rcases hc : compare b c with _ | _ | _ <;> rw [hc] at h2
          · exact absurd rfl h2
          · have hca : c < a := by
              have hx := Nat.compare_eq_gt.mp hb
              have hy := Nat.compare_eq_eq.mp hc
              omega
            rw [Nat.compare_eq_gt.mpr hca]
            exact fun hx => Ordering.noConfusion hx
          · have hca : c < a := by
              have hx := Nat.compare_eq_gt.mp hb
              have hy := Nat.compare_eq_gt.mp hc
              omega
            rw [Nat.compare_eq_gt.mpr hca]
            exact fun hx => Ordering.noConfusion hx

theorem padTo_length {n : Nat} {l : List Nat} (h : l.length ≤ n) :
    (padTo n l).length = n := by
  simp [padTo]; omega

theorem versionCmp_swap (a b : String) : (versionCmp a b).swap = versionCmp b a := by
  unfold versionCmp
  rw [partsCmpAux_swap]
  have hmax : max (parseVersionParts a).length (parseVersionParts b).length
      = max (parseVersionParts b).length (parseVersionParts a).length := Nat.max_comm _ _
  rw [hmax]

theorem versionGE_total (a b : String) : versionGE a b = true ∨ versionGE b a = true := by
  by_cases h : versionCmp a b = Ordering.lt
  · right
    have hsw := versionCmp_swap a b
    rw [h] at hsw
    simp only [versionGE, decide_eq_true_eq]
    rw [← hsw]
    decide
  · left
    simp only [versionGE, decide_eq_true_eq]
    exact h

/-- Evaluating `versionCmp` after padding both sides to any common length `n`
at least as long as both component lists agrees with `versionCmp`:
trailing zero-padding never changes the comparison. -/
theorem partsCmpAux_append_zero :
    ∀ as bs, as.length = bs.length →
      partsCmpAux (as ++ [0]) (bs ++ [0]) = partsCmpAux as bs := by
  intro as
  induction as with
  | nil =>
    intro bs h
    cases bs with
    | nil => rfl
    | cons b bs => simp at h
  | cons a as ih =>
    intro bs h
    cases bs with
    | nil => simp at h
    | cons b bs =>
      simp only [List.cons_append, partsCmpAux]
      rcases hab : compare a b with _ | _ | _ <;>
        first
        | rfl
        | exact ih bs (by simp only [List.length_cons] at h; omega)

theorem padTo_succ {n : Nat} {l : List Nat} (h : l.length ≤ n) :
    padTo (n + 1) l = padTo n l ++ [0] := by
  simp only [padTo]
  rw [List.append_assoc]
  congr 1
  have heq : n + 1 - l.length = (n - l.length) + 1 := by omega
  rw [heq, List.replicate_succ']

theorem partsCmpAux_pad_stable (as bs : List Nat) (n k : Nat)
    (ha : as.length ≤ n) (hb : bs.length ≤ n) :
    partsCmpAux (padTo (n + k) as) (padTo (n + k) bs)
      = partsCmpAux (padTo n as) (padTo n bs) := by
  induction k with
  | zero => rfl
  | succ k ih =>
    have ha' : as.length ≤ n + k := by omega
    have hb' : bs.length ≤ n + k := by omega
    rw [show n + (k + 1) = (n + k) + 1 from rfl, padTo_succ ha', padTo_succ hb',
      partsCmpAux_append_zero (padTo (n + k) as) (padTo (n + k) bs)
        (by rw [padTo_length ha', padTo_length hb']), ih]

/-- The comparator is unchanged by padding both sides to any common length
covering both component lists: it only ever reads missing entries as `0`. -/
theorem versionCmp_eq_padTo (a b : String) (n : Nat)
    (ha : (parseVersionParts a).length ≤ n)
    (hb : (parseVersionParts b).length ≤ n) :
    versionCmp a b
      = partsCmpAux (padTo n (parseVersionParts a)) (padTo n (parseVersionParts b)) := by
  unfold versionCmp
  have hm : max (parseVersionParts a).length (parseVersionParts b).length ≤ n :=
    Nat.max_le.mpr ⟨ha, hb⟩
  have hn : n = max (parseVersionParts a).length (parseVersionParts b).length
      + (n - max (parseVersionParts a).length (parseVersionParts b).length) := by omega
  rw [hn, partsCmpAux_pad_stable (parseVersionParts a) (parseVersionParts b) _ _
    (Nat.le_max_left _ _) (Nat.le_max_right _ _)]

theorem versionGE_refl (a : String) : versionGE a a = true := by
  simp only [versionGE, decide_eq_true_eq, versionCmp, partsCmpAux_self]
  exact fun hx => Ordering.noConfusion hx

theorem versionGE_trans (a b c : String) (h1 : versionGE a b = true)
    (h2 : versionGE b c = true) : versionGE a c = true := by
  simp only [versionGE, decide_eq_true_eq] at h1 h2 ⊢
  have hA : (parseVersionParts a).length
      ≤ max (parseVersionParts a).length
          (max (parseVersionParts b).length (parseVersionParts c).length) :=
    Nat.le_max_left _ _
  have hB : (parseVersionParts b).length
      ≤ max (parseVersionParts a).length
          (max (parseVersionParts b).length (parseVersionParts c).length) :=
    le_trans (Nat.le_max_left _ _) (Nat.le_max_right _ _)
  have hC : (parseVersionParts c).length
      ≤ max (parseVersionParts a).length
          (max (parseVersionParts b).length (parseVersionParts c).length) :=
    le_trans (Nat.le_max_right _ _) (Nat.le_max_right _ _)
  rw [versionCmp_eq_padTo a b _ hA hB] at h1
  rw [versionCmp_eq_padTo b c _ hB hC] at h2
  rw [versionCmp_eq_padTo a c _ hA hC]
  exact partsCmpAux_trans_ne_lt _ _ _
    (by rw [padTo_length hA, padTo_length hB])
    (by rw [padTo_length hB, padTo_length hC]) h1 h2

/-! ## The signing-tool locator (`findSigntool`, main.ts lines 27-79)

The filesystem is an oracle: the one `readdir` of the SDK base directory
either fails (`none`) or yields a list of entry names, and each `stat`
probe of a candidate binary path either succeeds or fails. -/

/-- Outcomes of the two kinds of filesystem access `findSigntool` makes. -/
structure LocatorEnv where
  listing : Option (List String)
  binaryExists : String → Bool

def sdkBasePath : String := "C:/Program Files (x86)/Windows Kits/10/bin"

/-- The probed path `` `${sdkBasePath}/${version}/x86/signtool.exe` `` (main.ts line 59). -/
def signtoolPathFor (version : String) : String :=
  sdkBasePath ++ "/" ++ version ++ "/x86/signtool.exe"

/-- The hardcoded fallback (main.ts lines 74-75). -/
def fallbackPath : String :=
  "C:/Program Files (x86)/Windows Kits/10/bin/10.0.17763.0/x86/signtool.exe"

/-- The filter regex `^\d+\.\d+\.\d+\.\d+$` of main.ts line 35: exactly four
dot-separated nonempty runs of ASCII digits. -/
def isVersionDir (s : String) : Bool :=
  (splitOnDot s.data).length == 4
    && (splitOnDot s.data).all (fun p => !p.isEmpty && p.all Char.isDigit)

/-- The descending sort relation of main.ts line 42: `a` is placed no later
than `b` exactly when the comparator does not order it after `b`. -/
def VersionBefore (a b : String) : Prop := versionGE a b = true

instance : DecidableRel VersionBefore :=
  fun a b => inferInstanceAs (Decidable (versionGE a b = true))

instance : IsTotal String VersionBefore := ⟨versionGE_total⟩

instance : IsTrans String VersionBefore :=
  ⟨fun a b c h1 h2 => versionGE_trans a b c h1 h2⟩

/-- Sorting as in `versionDirs.sort(comparator)` (main.ts lines 42-54). JS `Array.sort`
is stable and consistent with its comparator, and `versionGE` is a total
preorder, so its output coincides with stable insertion sort under
`VersionBefore`. -/
def sortVersionsDesc (l : List String) : List String :=
  List.insertionSort VersionBefore l

/-- The probe loop of main.ts lines 57-69: first version (in sorted order)
whose binary path passes `stat`. -/
def firstAvailable (env : LocatorEnv) : List String → Option String
  | [] => none
  | v :: rest =>
    if env.binaryExists (signtoolPathFor v) then some (signtoolPathFor v)
    else firstAvailable env rest

/-- The `try` body of `findSigntool` (main.ts lines 30-71); `none` stands
for the raised errors (listing failure, no version directories, or no
accessible binary). -/
def findSigntoolBody (env : LocatorEnv) : Option String :=
  match env.listing with
  | none => none
  | some versions =>
    let versionDirs := versions.filter isVersionDir
    if versionDirs.isEmpty then none
    else firstAvailable env (sortVersionsDesc versionDirs)

/-- Function `findSigntool` (main.ts lines 27-79): the `catch` maps every failure of
the body to the hardcoded fallback path. -/
def findSigntool (env : LocatorEnv) : String :=
  (findSigntoolBody env).getD fallbackPath

/-- The located signing utility (spec §3 SigningToolInfo). -/
structure SigningToolInfo where
  path : String
  version : String
deriving DecidableEq

def fallbackInfo : SigningToolInfo :=
  { path := fallbackPath, version := "10.0.17763.0" }

/-- The probe loop, paired with the version it chose. -/
def firstAvailableInfo (env : LocatorEnv) : List String → Option SigningToolInfo
  | [] => none
  | v :: rest =>
    if env.binaryExists (signtoolPathFor v) then
      some { path := signtoolPathFor v, version := v }
    else firstAvailableInfo env rest

/-- Modelled from the spec: the locator revision that returns a
`{path, version}` pair (spec §3 and §4.1; its `main.ts` revision is not
under `src/`, only its tests are). It runs the same discovery algorithm as
`findSigntool` and pairs the chosen version string with the tool path,
degrading to the fallback pair on any discovery failure (spec §4.1 step 5). -/
def locate (env : LocatorEnv) : SigningToolInfo :=
  match env.listing with
  | none => fallbackInfo
  | some versions =>
    let versionDirs := versions.filter isVersionDir
    if versionDirs.isEmpty then fallbackInfo
    else (firstAvailableInfo env (sortVersionsDesc versionDirs)).getD fallbackInfo

/-! ### Locator lemmas -/

theorem firstAvailable_eq_mapped_info (env : LocatorEnv) :
    ∀ l, firstAvailable env l
      = Option.map (fun i => SigningToolInfo.path i) (firstAvailableInfo env l) := by
  intro l
  induction l with
  | nil => rfl
  | cons v rest ih =>
    simp only [firstAvailable, firstAvailableInfo]
    by_cases hb : env.binaryExists (signtoolPathFor v) = true
    · rw [if_pos hb, if_pos hb]; rfl
    · rw [if_neg hb, if_neg hb]; exact ih

theorem firstAvailableInfo_eq_none (env : LocatorEnv) :
    ∀ l, (∀ v ∈ l, env.binaryExists (signtoolPathFor v) = false) →
      firstAvailableInfo env l = none := by
  intro l
  induction l with
  | nil => intro _; rfl
  | cons v rest ih =>
    intro h
    simp only [firstAvailableInfo]
    rw [if_neg (by rw [h v (List.mem_cons_self v rest)]; exact Bool.false_ne_true)]
    exact ih (fun w hw => h w (List.mem_cons_of_mem v hw))

theorem firstAvailableInfo_isSome (env : LocatorEnv) :
    ∀ l, (∃ v ∈ l, env.binaryExists (signtoolPathFor v) = true) →
      (firstAvailableInfo env l).isSome = true := by
  intro l
  induction l with
  | nil => rintro ⟨v, hv, _⟩; exact absurd hv (List.not_mem_nil v)
  | cons v rest ih =>
    rintro ⟨w, hw, hwb⟩
    simp only [firstAvailableInfo]
    by_cases hb : env.binaryExists (signtoolPathFor v) = true
    · rw [if_pos hb]; rfl
    · rw [if_neg hb]
      rcases List.mem_cons.mp hw with rfl | hw'
      · exact absurd hwb hb
      · exact ih ⟨w, hw', hwb⟩

/-- On a list that is pairwise ordered by the descending relation, the
probe loop returns the version-maximal element among those whose binary
exists. -/
theorem firstAvailableInfo_spec (env : LocatorEnv) :
    ∀ l, List.Pairwise VersionBefore l →
      ∀ info, firstAvailableInfo env l = some info →
        info.version ∈ l
        ∧ info.path = signtoolPathFor info.version
        ∧ env.binaryExists info.path = true
        ∧ ∀ w ∈ l, env.binaryExists (signtoolPathFor w) = true →
            versionGE info.version w = true := by
  intro l
  induction l with
  | nil => intro _ info h; exact Option.noConfusion h
  | cons v rest ih =>
    intro hpw info h
    rw [List.pairwise_cons] at hpw
    obtain ⟨hv, hrest⟩ := hpw
    by_cases hb : env.binaryExists (signtoolPathFor v) = true
    · rw [firstAvailableInfo, if_pos hb] at h
      have hinfo : info = { path := signtoolPathFor v, version := v } :=
        (Option.some.inj h).symm
      subst hinfo
      refine ⟨List.mem_cons_self v rest, rfl, hb, ?_⟩
      intro w hw _
      rcases List.mem_cons.mp hw with rfl | hw'
      · exact versionGE_refl w
      · exact hv w hw'
    · rw [firstAvailableInfo, if_neg hb] at h
      obtain ⟨hmem, hpath, hbin, hall⟩ := ih hrest info h
      refine ⟨List.mem_cons_of_mem v hmem, hpath, hbin, ?_⟩
      intro w hw hwb
      rcases List.mem_cons.mp hw with rfl | hw'
      · exact absurd hwb hb
      · exact hall w hw' hwb

/-- C5: on a successful listing, the locator orders the names matching
the 4-component dotted-numeric pattern descending by numeric
component-by-component comparison (a permutation of the matched names,
pairwise ordered by `VersionBefore`), and returns the numerically greatest
matched version whose binary exists, skipping greater versions whose binary
is absent; `10.0.9.0` orders below `10.0.26100.0`. -/
theorem findSigntool_selects_numerically_greatest_available
    (env : LocatorEnv) (names : List String)
    (hl : env.listing = some names)
    (hex : ∃ v ∈ names.filter isVersionDir,
      env.binaryExists (signtoolPathFor v) = true) :
    List.Sorted VersionBefore (sortVersionsDesc (names.filter isVersionDir))
    ∧ List.Perm (sortVersionsDesc (names.filter isVersionDir))
        (names.filter isVersionDir)
    ∧ (∃ best,
        findSigntool env = signtoolPathFor best
        ∧ locate env = { path := signtoolPathFor best, version := best }
        ∧ best ∈ names.filter isVersionDir
        ∧ env.binaryExists (signtoolPathFor best) = true
        ∧ (∀ w ∈ names.filter isVersionDir,
            env.binaryExists (signtoolPathFor w) = true → versionGE best w = true))
    ∧ versionGE "10.0.26100.0" "10.0.9.0" = true
    ∧ versionGE "10.0.9.0" "10.0.26100.0" = false := by
  obtain ⟨v, hvD, hvb⟩ := hex
  have hDne : (names.filter isVersionDir).isEmpty = false :=
    List.isEmpty_eq_false.mpr (fun h => by rw [h] at hvD; exact absurd hvD (List.not_mem_nil v))
  have hvS : v ∈ sortVersionsDesc (names.filter isVersionDir) :=
    (List.mem_insertionSort VersionBefore).mpr hvD
  obtain ⟨info, hinfo⟩ := Option.isSome_iff_exists.mp
    (firstAvailableInfo_isSome env _ ⟨v, hvS, hvb⟩)
  have hsorted : List.Pairwise VersionBefore
      (sortVersionsDesc (names.filter isVersionDir)) :=
    List.sorted_insertionSort VersionBefore _
  obtain ⟨hmem, hpath, hbin, hall⟩ := firstAvailableInfo_spec env _ hsorted info hinfo
  refine ⟨List.sorted_insertionSort VersionBefore _,
    List.perm_insertionSort VersionBefore _,
    ⟨info.version, ?_, ?_, (List.mem_insertionSort VersionBefore).mp hmem,
      hpath ▸ hbin, ?_⟩, by decide, by decide⟩
  · show (findSigntoolBody env).getD fallbackPath = signtoolPathFor info.version
    rw [show findSigntoolBody env
        = firstAvailable env (sortVersionsDesc (names.filter isVersionDir)) by
      simp only [findSigntoolBody, hl, hDne, Bool.false_eq_true, if_false]]
    rw [firstAvailable_eq_mapped_info, hinfo]
    simp [hpath]
  · show locate env = { path := signtoolPathFor info.version, version := info.version }
    rw [show locate env
        = (firstAvailableInfo env
            (sortVersionsDesc (names.filter isVersionDir))).getD fallbackInfo by
      simp only [locate, hl, hDne, Bool.false_eq_true, if_false]]
    rw [hinfo]
    cases info with
    | mk p ver => simp only [Option.getD_some]; simp only at hpath; rw [hpath]
  · intro w hw hwb
    exact hall w ((List.mem_insertionSort VersionBefore).mpr hw) hwb

/-- C6: the locator never propagates a discovery failure: whether the
listing itself fails, no listed name matches the version pattern, or no
matched version has an existing binary, it returns the fixed hardcoded
fallback path (and the fallback path/version pair). -/
theorem findSigntool_fallback_on_discovery_failure (env : LocatorEnv) :
    (env.listing = none →
      findSigntool env = fallbackPath ∧ locate env = fallbackInfo)
    ∧ (∀ names, env.listing = some names → names.filter isVersionDir = [] →
      findSigntool env = fallbackPath ∧ locate env = fallbackInfo)
    ∧ (∀ names, env.listing = some names →
      (∀ v ∈ names.filter isVersionDir,
        env.binaryExists (signtoolPathFor v) = false) →
      findSigntool env = fallbackPath ∧ locate env = fallbackInfo) := by
  refine ⟨?_, ?_, ?_⟩
  · intro h
    constructor
    · show (findSigntoolBody env).getD fallbackPath = fallbackPath
      simp [findSigntoolBody, h]
    · simp [locate, h]
  · intro names hl hD
    constructor
    · show (findSigntoolBody env).getD fallbackPath = fallbackPath
      simp [findSigntoolBody, hl, hD]
    · simp [locate, hl, hD]
  · intro names hl habs
    have hnone : firstAvailableInfo env
        (sortVersionsDesc (names.filter isVersionDir)) = none :=
      firstAvailableInfo_eq_none env _
        (fun w hw => habs w ((List.mem_insertionSort VersionBefore).mp hw))
    constructor
    · show (findSigntoolBody env).getD fallbackPath = fallbackPath
      by_cases hD : (names.filter isVersionDir).isEmpty = true
      · simp [findSigntoolBody, hl, hD]
      · rw [show findSigntoolBody env
            = firstAvailable env (sortVersionsDesc (names.filter isVersionDir)) by
          simp only [findSigntoolBody, hl]
          rw [if_neg hD]]
        rw [firstAvailable_eq_mapped_info, hnone]
        rfl
    · by_cases hD : (names.filter isVersionDir).isEmpty = true
      · simp [locate, hl, hD]
      · rw [show locate env
            = (firstAvailableInfo env
                (sortVersionsDesc (names.filter isVersionDir))).getD fallbackInfo by
          simp only [locate, hl]
          rw [if_neg hD]]
        rw [hnone]
        rfl

/-! ## File extensions and the supported set (main.ts lines 101-116, 196)

`path.extname` (Node, win32): the extension of the basename, from its last
dot, empty when there is no dot, when the only dot leads the basename
(`".gitignore"`), or for the special name `".."`. -/

/-- Basename: the characters after the last `/` or `\` separator. -/
def basenameChars (cs : List Char) : List Char :=
  ((cs.reverse).takeWhile (fun c => !(c = '/' || c = '\\'))).reverse

/-- Node `path.extname`. -/
def extname (p : String) : String :=
  let base := basenameChars p.data
  if base = ['.', '.'] then ""
  else
    let rev := base.reverse
    let pre := rev.takeWhile (fun c => c ≠ '.')
    if pre.length = rev.length then ""
    else if pre.length + 1 = rev.length then ""
    else String.mk ('.' :: pre.reverse)

/-- The supported extension list (main.ts lines 101-116). -/
def supportedFileExt : List String :=
  [".dll", ".exe", ".sys", ".vxd", ".msix", ".msixbundle", ".appx",
   ".appxbundle", ".msi", ".msp", ".msm", ".cab", ".ps1", ".psm1"]

/-- The yield condition of `getFiles` (main.ts line 260):
`supportedFileExt.includes(ext) || ext === '.nupkg'`, on the entry name. -/
def signableName (name : String) : Bool :=
  supportedFileExt.contains (extname name) || (extname name == ".nupkg")

/-! ## The file enumerator (`getFiles`, main.ts lines 250-264)

A directory tree stands for the oracle answers of `readdir` and `stat`:
each listed entry name comes with what `stat` reports for it — a regular
file, a directory with its own listing, or neither (the silent third
branch of main.ts lines 258-262). -/

mutual
inductive FsTree where
  | file : FsTree
  | dir : FsEntries → FsTree
  | other : FsTree
inductive FsEntries where
  | nil : FsEntries
  | cons : String → FsTree → FsEntries → FsEntries
end

mutual
/-- The per-entry branch of the loop body (main.ts lines 258-262). -/
def getFilesT (folder : String) (recursive : Bool) (name : String) : FsTree → List String
  | FsTree.file =>
    if signableName name then [folder ++ "/" ++ name] else []
  | FsTree.dir es =>
    if recursive then getFilesL (folder ++ "/" ++ name) recursive es else []
  | FsTree.other => []
/-- The entry loop of `getFiles` (main.ts lines 255-263); yields become list
elements in yield order. -/
def getFilesL (folder : String) (recursive : Bool) : FsEntries → List String
  | FsEntries.nil => []
  | FsEntries.cons name t rest =>
    getFilesT folder recursive name t ++ getFilesL folder recursive rest
end

mutual
/-- Reference enumeration for the specified behavior: every regular file of
the tree in pre-order listing order, descending into a subdirectory only
when `recursive` is set, paired as (full path, entry name). -/
def allFilesT (folder : String) (recursive : Bool) (name : String) :
    FsTree → List (String × String)
  | FsTree.file => [(folder ++ "/" ++ name, name)]
  | FsTree.dir es =>
    if recursive then allFilesL (folder ++ "/" ++ name) recursive es else []
  | FsTree.other => []
def allFilesL (folder : String) (recursive : Bool) :
    FsEntries → List (String × String)
  | FsEntries.nil => []
  | FsEntries.cons name t rest =>
    allFilesT folder recursive name t ++ allFilesL folder recursive rest
end

/-- The example tree of spec §8: `{a.dll, b.txt, sub/{inner.exe}, pkg.nupkg}`. -/
def exampleTree : FsEntries :=
  FsEntries.cons "a.dll" FsTree.file
    (FsEntries.cons "b.txt" FsTree.file
      (FsEntries.cons "sub"
        (FsTree.dir (FsEntries.cons "inner.exe" FsTree.file FsEntries.nil))
        (FsEntries.cons "pkg.nupkg" FsTree.file FsEntries.nil)))

/-- C7 (amended): the enumerator yields exactly the regular files whose
name is signable (supported extension or `.nupkg`), in pre-order listing
order, descending into subdirectories only when recursive; on the example
tree the recursive run yields `[a.dll, sub/inner.exe, pkg.nupkg]` and the
non-recursive run yields `[a.dll, pkg.nupkg]` — a top-level `.nupkg` file
is yielded whether or not recursion is enabled; only the descent into `sub`
is skipped. -/
theorem getFiles_yields_filtered_preorder :
    (∀ (folder : String) (recursive : Bool) (es : FsEntries),
      getFilesL folder recursive es
        = ((allFilesL folder recursive es).filter
            (fun pr => signableName pr.2)).map (fun pr => pr.1))
    ∧ getFilesL "root" true exampleTree
        = ["root/a.dll", "root/sub/inner.exe", "root/pkg.nupkg"]
    ∧ getFilesL "root" false exampleTree = ["root/a.dll", "root/pkg.nupkg"] := by
  refine ⟨?_, by decide, by decide⟩
  intro folder recursive es
  refine getFilesL.induct
    (fun folder recursive name t =>
      getFilesT folder recursive name t
        = ((allFilesT folder recursive name t).filter
            (fun pr => signableName pr.2)).map (fun pr => pr.1))
    (fun folder recursive es =>
      getFilesL folder recursive es
        = ((allFilesL folder recursive es).filter
            (fun pr => signableName pr.2)).map (fun pr => pr.1))
    ?_ ?_ ?_ ?_ ?_ ?_ ?_ folder recursive es
  · intro folder recursive name h
    simp [getFilesT, allFilesT, h]
  · intro folder recursive name h
    simp [getFilesT, allFilesT, h]
  · intro folder name es ih
    simp [getFilesT, allFilesT, ih]
  · intro folder recursive name es h
    simp [getFilesT, allFilesT, h]
  · intro folder recursive name
    simp [getFilesT, allFilesT]
  · intro folder recursive
    simp [getFilesL, allFilesL]
  · intro folder recursive name t rest ih1 ih2
    simp [getFilesL, allFilesL, ih1, ih2]

/-- C7 counterexample: the non-recursive enumeration of the example
tree is `[a.dll, pkg.nupkg]`, not `[a.dll]`: the top-level `pkg.nupkg`
regular file is yielded even when recursion is off. -/
theorem getFiles_nonrecursive_yields_nupkg :
    getFilesL "root" false exampleTree = ["root/a.dll", "root/pkg.nupkg"]
    ∧ ¬ getFilesL "root" false exampleTree = ["root/a.dll"] := by
  constructor
  · decide
  · decide

/-! ## Event traces

Every externally observable action of the pipeline, in order: backoff
waits, signing and verification invocations (`execFileAsync`), shell
commands (`execAsync`), file writes, error-channel log lines, and the
terminal failure report (`setFailed`). -/

inductive REvent where
  | waited : Nat → REvent
  | signCmd : String → List String → REvent
  | verifyCmd : String → List String → REvent
  | execCmd : String → REvent
  | writeFile : String → List Nat → REvent
  | errorLog : String → REvent
  | failedReport : String → REvent
deriving DecidableEq

def isSignEvent : REvent → Bool
  | REvent.signCmd _ _ => true
  | _ => false

def isVerifyEvent : REvent → Bool
  | REvent.verifyCmd _ _ => true
  | _ => false

def isFailedEvent : REvent → Bool
  | REvent.failedReport _ => true
  | _ => false

/-- The waits of a trace, in order. -/
def waitsOf (tr : List REvent) : List Nat :=
  tr.filterMap (fun e =>
    match e with
    | REvent.waited n => some n
    | _ => none)

/-! ## The signing orchestrator (`trySign`, main.ts lines 195-233) -/

/-- Whether each of the two external invocations of an attempt resolves
(`true`) or rejects (`false`), per attempt index. -/
structure SignOracle where
  sign : Nat → Bool
  verify : Nat → Bool

/-- The signing arguments (main.ts lines 208-210): base arguments, `/d`
description when one is configured, then the target file. -/
def signArgs (timestampServer sha1 certDesc file : String) : List String :=
  (["sign", "/sm", "/t", timestampServer, "/sha1", sha1]
    ++ (if certDesc ≠ "" then ["/d", certDesc] else []))
    ++ [file]

/-- The verification arguments (main.ts lines 219-223). -/
def verifyArgs (file : String) : List String :=
  ["verify", "/pa", file]

/-- The retry loop of `trySign` (main.ts lines 204-231), iterating over the
attempt indices `[0, 1, 2, 3, 4]`. Each iteration waits, and only for a
supported extension invokes signing; on signing success it invokes
verification; a rejection of either invocation is caught and falls through
to the next iteration. `supported` is `supportedFileExt.includes(ext)`
(main.ts line 206). -/
def trySignLoop (signtool timestampServer sha1 certDesc file : String)
    (supported : Bool) (o : SignOracle) : List Nat → Bool × List REvent
  | [] => (false, [])
  | i :: rest =>
    if supported then
      if o.sign i then
        if o.verify i then
          (true,
            [REvent.waited i,
             REvent.signCmd signtool (signArgs timestampServer sha1 certDesc file),
             REvent.verifyCmd signtool (verifyArgs file)])
        else
          let r := trySignLoop signtool timestampServer sha1 certDesc file supported o rest
          (r.1,
            REvent.waited i
              :: REvent.signCmd signtool (signArgs timestampServer sha1 certDesc file)
              :: REvent.verifyCmd signtool (verifyArgs file)
              :: r.2)
      else
        let r := trySignLoop signtool timestampServer sha1 certDesc file supported o rest
        (r.1,
          REvent.waited i
            :: REvent.signCmd signtool (signArgs timestampServer sha1 certDesc file)
            :: r.2)
    else
      let r := trySignLoop signtool timestampServer sha1 certDesc file supported o rest
      (r.1, REvent.waited i :: r.2)

/-- Function `trySign` (main.ts lines 195-233): result value and event trace. -/
def trySign (signtool timestampServer sha1 certDesc file : String)
    (o : SignOracle) : Bool × List REvent :=
  trySignLoop signtool timestampServer sha1 certDesc file
    (supportedFileExt.contains (extname file)) o [0, 1, 2, 3, 4]

/-- C8: on a supported file whose signing invocation always rejects,
`trySign` makes exactly 5 signing attempts, waiting 0, 1, 2, 3, 4 before
attempts 1-5, never invokes verification, and returns the failure value. -/
theorem trySign_exhausts_five_attempts (signtool timestampServer sha1 certDesc file : String)
    (o : SignOracle)
    (hsupp : supportedFileExt.contains (extname file) = true)
    (hfail : ∀ i, o.sign i = false) :
    trySign signtool timestampServer sha1 certDesc file o
      = (false,
        [REvent.waited 0,
         REvent.signCmd signtool (signArgs timestampServer sha1 certDesc file),
         REvent.waited 1,
         REvent.signCmd signtool (signArgs timestampServer sha1 certDesc file),
         REvent.waited 2,
         REvent.signCmd signtool (signArgs timestampServer sha1 certDesc file),
         REvent.waited 3,
         REvent.signCmd signtool (signArgs timestampServer sha1 certDesc file),
         REvent.waited 4,
         REvent.signCmd signtool (signArgs timestampServer sha1 certDesc file)])
    ∧ ((trySign signtool timestampServer sha1 certDesc file o).2).countP isSignEvent = 5
    ∧ ((trySign signtool timestampServer sha1 certDesc file o).2).countP isVerifyEvent = 0
    ∧ waitsOf (trySign signtool timestampServer sha1 certDesc file o).2 = [0, 1, 2, 3, 4]
    ∧ (trySign signtool timestampServer sha1 certDesc file o).1 = false := by
  have key : trySign signtool timestampServer sha1 certDesc file o
      = (false,
        [REvent.waited 0,
         REvent.signCmd signtool (signArgs timestampServer sha1 certDesc file),
         REvent.waited 1,
         REvent.signCmd signtool (signArgs timestampServer sha1 certDesc file),
         REvent.waited 2,
         REvent.signCmd signtool (signArgs timestampServer sha1 certDesc file),
         REvent.waited 3,
         REvent.signCmd signtool (signArgs timestampServer sha1 certDesc file),
         REvent.waited 4,
         REvent.signCmd signtool (signArgs timestampServer sha1 certDesc file)]) := by
    rw [show trySign signtool timestampServer sha1 certDesc file o
        = trySignLoop signtool timestampServer sha1 certDesc file true o [0, 1, 2, 3, 4] by
      rw [trySign, hsupp]]
    simp [trySignLoop, hfail]
  refine ⟨key, ?_, ?_, ?_, ?_⟩ <;> rw [key] <;> rfl

/-- C4 (amended): on a file with an unsupported extension, `trySign`
invokes no signing or verification command, but the retry loop still runs
all five iterations — the waits 0, 1, 2, 3, 4 all occur — and the return
value is the same `false` that an exhausted retry produces. -/
theorem trySign_unsupported_skips_commands_but_waits
    (signtool timestampServer sha1 certDesc file : String) (o : SignOracle)
    (hunsupp : supportedFileExt.contains (extname file) = false) :
    trySign signtool timestampServer sha1 certDesc file o
      = (false,
        [REvent.waited 0, REvent.waited 1, REvent.waited 2,
         REvent.waited 3, REvent.waited 4])
    ∧ ((trySign signtool timestampServer sha1 certDesc file o).2).countP isSignEvent = 0
    ∧ ((trySign signtool timestampServer sha1 certDesc file o).2).countP isVerifyEvent = 0
    ∧ waitsOf (trySign signtool timestampServer sha1 certDesc file o).2 = [0, 1, 2, 3, 4] := by
  have key : trySign signtool timestampServer sha1 certDesc file o
      = (false,
        [REvent.waited 0, REvent.waited 1, REvent.waited 2,
         REvent.waited 3, REvent.waited 4]) := by
    rw [show trySign signtool timestampServer sha1 certDesc file o
        = trySignLoop signtool timestampServer sha1 certDesc file false o [0, 1, 2, 3, 4] by
      rw [trySign, hunsupp]]
    simp [trySignLoop]
  refine ⟨key, ?_, ?_, ?_⟩ <;> rw [key] <;> rfl

/-- C4 counterexample: on `C:/test/file.txt` the retry loop is entered
and all five waits occur (waits `[0, 1, 2, 3, 4]`, not none), even though
no external command is invoked; the return value is the plain `false`, not
a distinguished skip marker. -/
theorem trySign_txt_waits_counterexample :
    waitsOf (trySign "tool" "http://ts" "sha" "Desc" "C:/test/file.txt"
      { sign := fun _ => true, verify := fun _ => true }).2 = [0, 1, 2, 3, 4]
    ∧ ¬ waitsOf (trySign "tool" "http://ts" "sha" "Desc" "C:/test/file.txt"
      { sign := fun _ => true, verify := fun _ => true }).2 = []
    ∧ ((trySign "tool" "http://ts" "sha" "Desc" "C:/test/file.txt"
      { sign := fun _ => true, verify := fun _ => true }).2).countP isSignEvent = 0
    ∧ (trySign "tool" "http://ts" "sha" "Desc" "C:/test/file.txt"
      { sign := fun _ => true, verify := fun _ => true }).1 = false := by
  refine ⟨by decide, by decide, by decide, by decide⟩

/-- C9: the caller cannot distinguish an unsupported file from an
exhausted retry — both produce the boolean `false` — and the unsupported
file still incurs all five loop iterations with waits 0 through 4. -/
theorem trySign_skip_and_exhaust_agree
    (signtool timestampServer sha1 certDesc fileU fileS : String)
    (oU oS : SignOracle)
    (hU : supportedFileExt.contains (extname fileU) = false)
    (hS : supportedFileExt.contains (extname fileS) = true)
    (hfail : ∀ i, oS.sign i = false) :
    (trySign signtool timestampServer sha1 certDesc fileU oU).1 = false
    ∧ (trySign signtool timestampServer sha1 certDesc fileS oS).1 = false
    ∧ (trySign signtool timestampServer sha1 certDesc fileU oU).1
        = (trySign signtool timestampServer sha1 certDesc fileS oS).1
    ∧ waitsOf (trySign signtool timestampServer sha1 certDesc fileU oU).2
        = [0, 1, 2, 3, 4] := by
  have keyU : (trySign signtool timestampServer sha1 certDesc fileU oU)
      = (false,
        [REvent.waited 0, REvent.waited 1, REvent.waited 2,
         REvent.waited 3, REvent.waited 4]) := by
    rw [show trySign signtool timestampServer sha1 certDesc fileU oU
        = trySignLoop signtool timestampServer sha1 certDesc fileU false oU [0, 1, 2, 3, 4] by
      rw [trySign, hU]]
    simp [trySignLoop]
  have keyS : (trySign signtool timestampServer sha1 certDesc fileS oS).1 = false := by
    rw [show trySign signtool timestampServer sha1 certDesc fileS oS
        = trySignLoop signtool timestampServer sha1 certDesc fileS true oS [0, 1, 2, 3, 4] by
      rw [trySign, hS]]
    simp [trySignLoop, hfail]
  refine ⟨by rw [keyU], keyS, by rw [keyU, keyS], by rw [keyU]; rfl⟩

/-- C2 (amended): a verification failure after a successful signing
invocation is caught by the same handler as a signing failure: the attempt
does not return the success value, the loop retries (issuing further
signing invocations), and if verification fails on every attempt `trySign`
returns `false` after five sign-and-verify rounds. -/
theorem trySign_verify_failure_retries
    (signtool timestampServer sha1 certDesc file : String) (o : SignOracle)
    (hsupp : supportedFileExt.contains (extname file) = true)
    (hsign : ∀ i, o.sign i = true)
    (hver : ∀ i, o.verify i = false) :
    (trySign signtool timestampServer sha1 certDesc file o).1 = false
    ∧ ((trySign signtool timestampServer sha1 certDesc file o).2).countP isSignEvent = 5
    ∧ ((trySign signtool timestampServer sha1 certDesc file o).2).countP isVerifyEvent = 5
    ∧ waitsOf (trySign signtool timestampServer sha1 certDesc file o).2
        = [0, 1, 2, 3, 4] := by
  have key : trySign signtool timestampServer sha1 certDesc file o
      = (false,
        [REvent.waited 0,
         REvent.signCmd signtool (signArgs timestampServer sha1 certDesc file),
         REvent.verifyCmd signtool (verifyArgs file),
         REvent.waited 1,
         REvent.signCmd signtool (signArgs timestampServer sha1 certDesc file),
         REvent.verifyCmd signtool (verifyArgs file),
         REvent.waited 2,
         REvent.signCmd signtool (signArgs timestampServer sha1 certDesc file),
         REvent.verifyCmd signtool (verifyArgs file),
         REvent.waited 3,
         REvent.signCmd signtool (signArgs timestampServer sha1 certDesc file),
         REvent.verifyCmd signtool (verifyArgs file),
         REvent.waited 4,
         REvent.signCmd signtool (signArgs timestampServer sha1 certDesc file),
         REvent.verifyCmd signtool (verifyArgs file)]) := by
    rw [show trySign signtool timestampServer sha1 certDesc file o
        = trySignLoop signtool timestampServer sha1 certDesc file true o [0, 1, 2, 3, 4] by
      rw [trySign, hsupp]]
    simp [trySignLoop, hsign, hver]
  refine ⟨?_, ?_, ?_, ?_⟩ <;> rw [key] <;> rfl

/-- C2 counterexample: with signing always succeeding and verification
always failing on `C:/t/file.dll`, `trySign` returns `false` — not the
success outcome — and issues five signing invocations, so a verification
failure does cause retries and a failure result. -/
theorem trySign_verify_failure_counterexample :
    (trySign "tool" "http://ts" "sha" "Desc" "C:/t/file.dll"
      { sign := fun _ => true, verify := fun _ => false }).1 = false
    ∧ ¬ (trySign "tool" "http://ts" "sha" "Desc" "C:/t/file.dll"
      { sign := fun _ => true, verify := fun _ => false }).1 = true
    ∧ ((trySign "tool" "http://ts" "sha" "Desc" "C:/t/file.dll"
      { sign := fun _ => true, verify := fun _ => false }).2).countP isSignEvent = 5 := by
  refine ⟨by decide, by decide, by decide⟩

/-! ## Version-gated digest argument (spec-modelled, C1) -/

/-- Modelled from the spec: the signing-argument construction of the
`trySign` revision that consults the located tool version; that revision of
`main.ts` is not under `src/` (only its tests are). Spec §4.4 step 4: the
base arguments of main.ts lines 208-210, plus a file-digest-algorithm
argument (`/fd sha1`) appended exactly when the located version is
`>= 10.0.26100.0` under the component-wise numeric comparison of §4.1, the
boundary being inclusive. -/
def signArgsVersioned (toolVersion timestampServer sha1 certDesc file : String) :
    List String :=
  ((["sign", "/sm", "/t", timestampServer, "/sha1", sha1]
    ++ (if certDesc ≠ "" then ["/d", certDesc] else []))
    ++ (if versionGE toolVersion "10.0.26100.0" then ["/fd", "sha1"] else []))
    ++ [file]

/-- C1: the signing command contains the digest-algorithm flag exactly
when the located version compares `>= 10.0.26100.0` component-wise; when it
does, `/fd` is immediately followed by `sha1`; the boundary `10.0.26100.0`
is included and `10.0.17763.0` is not. -/
theorem signArgsVersioned_digest_gate
    (toolVersion timestampServer sha1 certDesc file : String)
    (h1 : timestampServer ≠ "/fd") (h2 : sha1 ≠ "/fd")
    (h3 : certDesc ≠ "/fd") (h4 : file ≠ "/fd") :
    (("/fd" ∈ signArgsVersioned toolVersion timestampServer sha1 certDesc file)
      ↔ versionGE toolVersion "10.0.26100.0" = true)
    ∧ (versionGE toolVersion "10.0.26100.0" = true →
        List.Sublist ["/fd", "sha1"]
          (signArgsVersioned toolVersion timestampServer sha1 certDesc file))
    ∧ versionGE "10.0.26100.0" "10.0.26100.0" = true
    ∧ versionGE "10.0.17763.0" "10.0.26100.0" = false := by
  refine ⟨?_, ?_, by decide, by decide⟩
  · constructor
    · intro hmem
      by_cases hgate : versionGE toolVersion "10.0.26100.0" = true
      · exact hgate
      · exfalso
        rw [signArgsVersioned, if_neg hgate, List.append_nil] at hmem
        rcases List.mem_append.mp hmem with hm | hm
        · rcases List.mem_append.mp hm with hm2 | hm2
          · simp only [List.mem_cons, List.not_mem_nil, or_false] at hm2
            rcases hm2 with h | h | h | h | h | h
            · exact absurd h (by decide)
            · exact absurd h (by decide)
            · exact absurd h (by decide)
            · exact absurd h.symm h1
            · exact absurd h (by decide)
            · exact absurd h.symm h2
          · by_cases hd : certDesc ≠ ""
            · rw [if_pos hd] at hm2
              simp only [List.mem_cons, List.not_mem_nil, or_false] at hm2
              rcases hm2 with h | h
              · exact absurd h (by decide)
              · exact absurd h.symm h3
            · rw [if_neg hd] at hm2
              exact absurd hm2 (List.not_mem_nil _)
        · simp only [List.mem_singleton] at hm
          exact absurd hm.symm h4
    · intro hgate
      simp [signArgsVersioned, hgate]
  · intro hgate
    rw [signArgsVersioned, if_pos hgate]
    exact List.Sublist.trans (List.sublist_append_right _ _)
      (List.sublist_append_left _ _)

/-! ## Certificate staging and store import (main.ts lines 161-188)

The base64 decoder is the external `Buffer.from(input, 'base64')`
collaborator, modelled by its documented lenient behavior: characters
outside the base64 alphabet are ignored, and whatever remains is decoded,
so decoding is total and never fails. -/

/-- Value of one base64 alphabet character (standard and URL-safe), `none`
for every other character (ignored by the lenient decoder). -/
def b64Val (c : Char) : Option Nat :=
  if 'A' ≤ c ∧ c ≤ 'Z' then some (c.toNat - 65)
  else if 'a' ≤ c ∧ c ≤ 'z' then some (c.toNat - 97 + 26)
  else if '0' ≤ c ∧ c ≤ '9' then some (c.toNat - 48 + 52)
  else if c = '+' ∨ c = '-' then some 62
  else if c = '/' ∨ c = '_' then some 63
  else none

/-- Decode 6-bit groups to bytes: 4 groups to 3 bytes, a final 3 to 2,
a final 2 to 1, and a lone trailing group is dropped. -/
def b64Bytes : List Nat → List Nat
  | a :: b :: c :: d :: rest =>
    (a * 4 + b / 16) :: ((b % 16) * 16 + c / 4) :: ((c % 4) * 64 + d) :: b64Bytes rest
  | [a, b, c] => [a * 4 + b / 16, (b % 16) * 16 + c / 4]
  | [a, b] => [a * 4 + b / 16]
  | _ => []

/-- Lenient base64 decoding of a string to bytes (total: never fails). -/
def base64Decode (s : String) : List Nat :=
  b64Bytes (s.data.filterMap b64Val)

/-- The certificate path `` `${env['TEMP']}\\certificate.pfx` `` (main.ts line 22). -/
def certPath (temp : String) : String :=
  temp ++ "\\certificate.pfx"

/-- Function `createCert` (main.ts lines 161-168): decode the configured certificate
input and write it to the fixed certificate path; the only failure path is
the write itself rejecting (`writeOk = false`), which propagates as an
exception carrying the I/O error. On a successful write it returns `true`
unconditionally. -/
def createCert (certificate temp : String) (writeOk : Bool) (writeErr : String) :
    Except String Bool × List REvent :=
  if writeOk then
    (Except.ok true, [REvent.writeFile (certPath temp) (base64Decode certificate)])
  else
    (Except.error writeErr, [REvent.writeFile (certPath temp) (base64Decode certificate)])

/-- C10: `createCert` reports staging success whenever the write
succeeds, for every certificate input string: decoding is total (invalid
characters ignored), so empty (`""`) and malformed (`"%%%"`) inputs still
stage a byte sequence at the fixed certificate path; a well-formed input
decodes to its bytes (`"dGVzdA=="` to `"test"`). -/
theorem createCert_succeeds_whenever_write_succeeds
    (certificate temp writeErr : String) :
    (createCert certificate temp true writeErr).1 = Except.ok true
    ∧ (createCert certificate temp true writeErr).2
        = [REvent.writeFile (certPath temp) (base64Decode certificate)]
    ∧ base64Decode "" = []
    ∧ base64Decode "%%%" = []
    ∧ base64Decode "dGVzdA==" = [116, 101, 115, 116] := by
  refine ⟨rfl, rfl, by decide, by decide, by decide⟩

/-- Function `addCertToStore` (main.ts lines 174-188): runs the certutil import
command; on rejection it logs the captured stdout and stderr to the error
channel and returns `false` instead of rethrowing. -/
def addCertToStore (certPassword temp : String) (importOk : Bool)
    (importErrOut importErrErr : String) : Bool × List REvent :=
  if importOk then
    (true,
      [REvent.execCmd
        ("certutil -f -p " ++ certPassword ++ " -importpfx " ++ certPath temp)])
  else
    (false,
      [REvent.execCmd
        ("certutil -f -p " ++ certPassword ++ " -importpfx " ++ certPath temp),
       REvent.errorLog importErrOut,
       REvent.errorLog importErrErr])

/-! ## The pipeline driver (`run`, main.ts lines 266-273) -/

/-- The workflow inputs `run` and its callees read (main.ts lines 96-98,
123-126, 196-200, 240-242), plus the TEMP directory of the cert path. -/
structure Inputs where
  folder : String
  recursive : String
  certificate : String
  certPassword : String
  certSha1 : String
  certDesc : String
  timestampServer : String
  temp : String

/-- Function `validateInputs` (main.ts lines 121-144): logs the first missing
required input and returns `false`, else `true`. -/
def validateInputs (inp : Inputs) : Bool × List REvent :=
  if inp.folder = "" then
    (false, [REvent.errorLog "folder input must have a value."])
  else if inp.certificate = "" then
    (false, [REvent.errorLog "certificate input must have a value."])
  else if inp.certPassword = "" then
    (false, [REvent.errorLog "cert-password input must have a value."])
  else if inp.certSha1 = "" then
    (false, [REvent.errorLog "cert-sha1 input must have a value."])
  else (true, [])

/-- The external-world outcomes one pipeline run can observe. -/
structure RunEnv where
  writeOk : Bool
  writeErr : String
  importOk : Bool
  importErrOut : String
  importErrErr : String
  tree : FsEntries
  sign : String → Nat → Bool
  verify : String → Nat → Bool
  toolEnv : LocatorEnv

/-- Function `signFiles` (main.ts lines 239-244): `trySign` on every enumerated
file, sequentially, concatenating the traces. -/
def signFiles (inp : Inputs) (env : RunEnv) (signtool : String) : List REvent :=
  ((getFilesL inp.folder (inp.recursive == "true") env.tree).map
    (fun f =>
      (trySign signtool inp.timestampServer inp.certSha1 inp.certDesc f
        { sign := env.sign f, verify := env.verify f }).2)).flatten

/-- Function `run` (main.ts lines 266-273): validation result is ignored; a
rejection of the certificate write escapes to the catch and produces the
single `setFailed` report; a store-import failure returns `false` without
throwing, which skips signing with no report. -/
def run (inp : Inputs) (env : RunEnv) : List REvent :=
  (validateInputs inp).2 ++
    match createCert inp.certificate inp.temp env.writeOk env.writeErr with
    | (Except.ok certOk, cEvents) =>
      if certOk then
        cEvents ++
          match addCertToStore inp.certPassword inp.temp env.importOk
              env.importErrOut env.importErrErr with
          | (true, aEvents) =>
            aEvents ++ signFiles inp env (findSigntool env.toolEnv)
          | (false, aEvents) => aEvents
      else cEvents
    | (Except.error e, cEvents) =>
      cEvents ++ [REvent.failedReport ("code Signing failed\nError: " ++ e)]

theorem validateInputs_no_commands (inp : Inputs) :
    (validateInputs inp).2.countP isSignEvent = 0
    ∧ (validateInputs inp).2.countP isVerifyEvent = 0
    ∧ (validateInputs inp).2.countP isFailedEvent = 0 := by
  unfold validateInputs
  split_ifs <;> exact ⟨rfl, rfl, rfl⟩

/-- C3 (amended): when staging succeeds but the store import fails,
`run` invokes zero signing (and verification) commands, logs the import
diagnostics to the error channel, and reports no terminal failure at all:
`addCertToStore` swallows the rejection and returns `false`, so the
`setFailed` handler never fires. -/
theorem run_import_failure_skips_signing_no_report (inp : Inputs) (env : RunEnv)
    (hw : env.writeOk = true) (hi : env.importOk = false) :
    (run inp env).countP isSignEvent = 0
    ∧ (run inp env).countP isVerifyEvent = 0
    ∧ (run inp env).countP isFailedEvent = 0
    ∧ REvent.errorLog env.importErrOut ∈ run inp env
    ∧ REvent.errorLog env.importErrErr ∈ run inp env := by
  have hrun : run inp env
      = (validateInputs inp).2
        ++ ([REvent.writeFile (certPath inp.temp) (base64Decode inp.certificate)]
          ++ [REvent.execCmd
                ("certutil -f -p " ++ inp.certPassword ++ " -importpfx "
                  ++ certPath inp.temp),
              REvent.errorLog env.importErrOut,
              REvent.errorLog env.importErrErr]) := by
    rw [run, createCert, if_pos hw, addCertToStore,
      if_neg (by rw [hi]; exact Bool.false_ne_true)]
    rfl
  obtain ⟨hv1, hv2, hv3⟩ := validateInputs_no_commands inp
  rw [hrun]
  refine ⟨?_, ?_, ?_, ?_, ?_⟩
  · rw [List.countP_append, hv1]; rfl
  · rw [List.countP_append, hv2]; rfl
  · rw [List.countP_append, hv3]; rfl
  · exact List.mem_append_right _ (by simp)
  · exact List.mem_append_right _ (by simp)

/-- A concrete pipeline configuration with one signable file in the folder
and a store import that fails. -/
def importFailInputs : Inputs :=
  { folder := "folder", recursive := "true", certificate := "dGVzdA==",
    certPassword := "pw", certSha1 := "sha1", certDesc := "Desc",
    timestampServer := "http://ts", temp := "C:/tmp" }

def importFailEnv : RunEnv :=
  { writeOk := true, writeErr := "", importOk := false,
    importErrOut := "import-out", importErrErr := "import-err",
    tree := FsEntries.cons "a.dll" FsTree.file FsEntries.nil,
    sign := fun _ _ => true, verify := fun _ _ => true,
    toolEnv := { listing := none, binaryExists := fun _ => false } }

/-- C3 counterexample: on the concrete import-failure run, zero signing
commands are invoked, but also zero terminal failure reports — not exactly
one as claimed. -/
theorem run_import_failure_counterexample :
    (run importFailInputs importFailEnv).countP isSignEvent = 0
    ∧ (run importFailInputs importFailEnv).countP isFailedEvent = 0
    ∧ ¬ (run importFailInputs importFailEnv).countP isFailedEvent = 1 := by
  refine ⟨by decide, by decide, by decide⟩

/-! ## Witnesses: each hypothesis-bearing theorem applied at a concrete
input with its hypotheses discharged. -/

/-- The discovery scenario of spec §8: three version directories (and one
junk entry), with only `10.0.17763.0`'s binary present. -/
def c5Env : LocatorEnv :=
  { listing := some ["10.0.19041.0", "10.0.17763.0", "junk", "10.0.22000.0"],
    binaryExists := fun p => p == signtoolPathFor "10.0.17763.0" }

theorem findSigntool_selects_greatest_witness :
    c5Env.listing = some ["10.0.19041.0", "10.0.17763.0", "junk", "10.0.22000.0"]
    ∧ (∃ v ∈ (["10.0.19041.0", "10.0.17763.0", "junk", "10.0.22000.0"]).filter isVersionDir,
        c5Env.binaryExists (signtoolPathFor v) = true)
    ∧ (∃ best,
        findSigntool c5Env = signtoolPathFor best
        ∧ locate c5Env = { path := signtoolPathFor best, version := best }
        ∧ best ∈ (["10.0.19041.0", "10.0.17763.0", "junk", "10.0.22000.0"]).filter isVersionDir
        ∧ c5Env.binaryExists (signtoolPathFor best) = true
        ∧ (∀ w ∈ (["10.0.19041.0", "10.0.17763.0", "junk", "10.0.22000.0"]).filter isVersionDir,
            c5Env.binaryExists (signtoolPathFor w) = true → versionGE best w = true)) :=
  ⟨rfl, by decide,
    (findSigntool_selects_numerically_greatest_available c5Env
      ["10.0.19041.0", "10.0.17763.0", "junk", "10.0.22000.0"] rfl (by decide)).2.2.1⟩

theorem findSigntool_fallback_witness :
    (findSigntool { listing := none, binaryExists := fun _ => false } = fallbackPath
      ∧ locate { listing := none, binaryExists := fun _ => false } = fallbackInfo)
    ∧ (findSigntool { listing := some ["junk", "x.y"], binaryExists := fun _ => false }
          = fallbackPath
      ∧ locate { listing := some ["junk", "x.y"], binaryExists := fun _ => false }
          = fallbackInfo)
    ∧ (findSigntool { listing := some ["10.0.19041.0"], binaryExists := fun _ => false }
          = fallbackPath
      ∧ locate { listing := some ["10.0.19041.0"], binaryExists := fun _ => false }
          = fallbackInfo) :=
  ⟨(findSigntool_fallback_on_discovery_failure
      { listing := none, binaryExists := fun _ => false }).1 rfl,
    (findSigntool_fallback_on_discovery_failure
      { listing := some ["junk", "x.y"], binaryExists := fun _ => false }).2.1
      ["junk", "x.y"] rfl (by decide),
    (findSigntool_fallback_on_discovery_failure
      { listing := some ["10.0.19041.0"], binaryExists := fun _ => false }).2.2
      ["10.0.19041.0"] rfl (by decide)⟩

theorem trySign_exhausts_five_attempts_witness :
    supportedFileExt.contains (extname "C:/t/file.exe") = true
    ∧ (trySign "tool" "http://ts" "sha1" "Desc" "C:/t/file.exe"
        { sign := fun _ => false, verify := fun _ => true }).1 = false
    ∧ waitsOf (trySign "tool" "http://ts" "sha1" "Desc" "C:/t/file.exe"
        { sign := fun _ => false, verify := fun _ => true }).2 = [0, 1, 2, 3, 4]
    ∧ ((trySign "tool" "http://ts" "sha1" "Desc" "C:/t/file.exe"
        { sign := fun _ => false, verify := fun _ => true }).2).countP isSignEvent = 5
    ∧ ((trySign "tool" "http://ts" "sha1" "Desc" "C:/t/file.exe"
        { sign := fun _ => false, verify := fun _ => true }).2).countP isVerifyEvent = 0 :=
  ⟨by decide,
    (trySign_exhausts_five_attempts "tool" "http://ts" "sha1" "Desc" "C:/t/file.exe"
      { sign := fun _ => false, verify := fun _ => true } (by decide) (fun _ => rfl)).2.2.2.2,
    (trySign_exhausts_five_attempts "tool" "http://ts" "sha1" "Desc" "C:/t/file.exe"
      { sign := fun _ => false, verify := fun _ => true } (by decide) (fun _ => rfl)).2.2.2.1,
    (trySign_exhausts_five_attempts "tool" "http://ts" "sha1" "Desc" "C:/t/file.exe"
      { sign := fun _ => false, verify := fun _ => true } (by decide) (fun _ => rfl)).2.1,
    (trySign_exhausts_five_attempts "tool" "http://ts" "sha1" "Desc" "C:/t/file.exe"
      { sign := fun _ => false, verify := fun _ => true } (by decide) (fun _ => rfl)).2.2.1⟩

theorem trySign_unsupported_witness :
    supportedFileExt.contains (extname "C:/x/notes.txt") = false
    ∧ trySign "tool" "http://ts" "sha1" "Desc" "C:/x/notes.txt"
        { sign := fun _ => true, verify := fun _ => true }
      = (false,
        [REvent.waited 0, REvent.waited 1, REvent.waited 2,
         REvent.waited 3, REvent.waited 4]) :=
  ⟨by decide,
    (trySign_unsupported_skips_commands_but_waits "tool" "http://ts" "sha1" "Desc"
      "C:/x/notes.txt" { sign := fun _ => true, verify := fun _ => true }
      (by decide)).1⟩

theorem trySign_skip_and_exhaust_agree_witness :
    supportedFileExt.contains (extname "a.txt") = false
    ∧ supportedFileExt.contains (extname "b.dll") = true
    ∧ (trySign "tool" "http://ts" "sha1" "Desc" "a.txt"
        { sign := fun _ => true, verify := fun _ => true }).1
      = (trySign "tool" "http://ts" "sha1" "Desc" "b.dll"
        { sign := fun _ => false, verify := fun _ => true }).1 :=
  ⟨by decide, by decide,
    (trySign_skip_and_exhaust_agree "tool" "http://ts" "sha1" "Desc" "a.txt" "b.dll"
      { sign := fun _ => true, verify := fun _ => true }
      { sign := fun _ => false, verify := fun _ => true }
      (by decide) (by decide) (fun _ => rfl)).2.2.1⟩

theorem trySign_verify_failure_retries_witness :
    supportedFileExt.contains (extname "C:/t/app.dll") = true
    ∧ (trySign "tool" "http://ts" "sha1" "Desc" "C:/t/app.dll"
        { sign := fun _ => true, verify := fun _ => false }).1 = false
    ∧ ((trySign "tool" "http://ts" "sha1" "Desc" "C:/t/app.dll"
        { sign := fun _ => true, verify := fun _ => false }).2).countP isSignEvent = 5
    ∧ ((trySign "tool" "http://ts" "sha1" "Desc" "C:/t/app.dll"
        { sign := fun _ => true, verify := fun _ => false }).2).countP isVerifyEvent = 5 :=
  ⟨by decide,
    (trySign_verify_failure_retries "tool" "http://ts" "sha1" "Desc" "C:/t/app.dll"
      { sign := fun _ => true, verify := fun _ => false }
      (by decide) (fun _ => rfl) (fun _ => rfl)).1,
    (trySign_verify_failure_retries "tool" "http://ts" "sha1" "Desc" "C:/t/app.dll"
      { sign := fun _ => true, verify := fun _ => false }
      (by decide) (fun _ => rfl) (fun _ => rfl)).2.1,
    (trySign_verify_failure_retries "tool" "http://ts" "sha1" "Desc" "C:/t/app.dll"
      { sign := fun _ => true, verify := fun _ => false }
      (by decide) (fun _ => rfl) (fun _ => rfl)).2.2.1⟩

theorem signArgsVersioned_digest_gate_witness :
    ("/fd" ∈ signArgsVersioned "10.0.26100.0" "http://ts" "abc" "Desc" "f.dll")
    ∧ ¬ ("/fd" ∈ signArgsVersioned "10.0.17763.0" "http://ts" "abc" "Desc" "f.dll") :=
  ⟨(signArgsVersioned_digest_gate "10.0.26100.0" "http://ts" "abc" "Desc" "f.dll"
      (by decide) (by decide) (by decide) (by decide)).1.mpr (by decide),
    fun hmem =>
      absurd ((signArgsVersioned_digest_gate "10.0.17763.0" "http://ts" "abc"
        "Desc" "f.dll" (by decide) (by decide) (by decide) (by decide)).1.mp hmem)
        (by decide)⟩

theorem run_import_failure_witness :
    importFailEnv.writeOk = true
    ∧ importFailEnv.importOk = false
    ∧ (run importFailInputs importFailEnv).countP isSignEvent = 0
    ∧ (run importFailInputs importFailEnv).countP isFailedEvent = 0
    ∧ REvent.errorLog "import-out" ∈ run importFailInputs importFailEnv :=
  ⟨rfl, rfl,
    (run_import_failure_skips_signing_no_report importFailInputs importFailEnv rfl rfl).1,
    (run_import_failure_skips_signing_no_report importFailInputs importFailEnv rfl rfl).2.2.1,
    (run_import_failure_skips_signing_no_report importFailInputs importFailEnv rfl rfl).2.2.2.1⟩

end SignTool
